import Mathlib

/-!
Verification of the TaskD energy-report aggregator (`task_d.py`).

The script reads a delimited file of quarter-hour electricity meter rows
(`timestamp, c1, c2, c3, p1, p2, p3` in watt-hours), drops an optional header
row, sums the six channels per calendar day, converts to kilowatt-hours, and
prints a Finnish-locale table sorted by date.

This file embeds the script shallowly: Python floats become `ℚ`, the various
`ValueError`-raising parsers become `Option`/`Except` values, and the
insertion-ordered `defaultdict` becomes an association list.
-/

namespace TaskD

/-! ## Characters and digit runs -/

/-- ASCII decimal digit test (the `\d` class used by `strptime`'s regexes). -/
def isDigitChar (c : Char) : Bool := 48 ≤ c.toNat && c.toNat ≤ 57

/-- Numeric value of a digit character. -/
def digitVal (c : Char) : Nat := c.toNat - 48

/-- Whitespace test (models Python's `str.strip` / `\s` for the data at hand). -/
def isSpaceChar (c : Char) : Bool := c.isWhitespace

/-- Split a character list into its maximal leading run of digits and the rest. -/
def digitRun : List Char → List Char × List Char
  | [] => ([], [])
  | c :: cs =>
    if isDigitChar c then
      let p := digitRun cs
      (c :: p.1, p.2)
    else ([], c :: cs)

/-- Decimal value of a list of digit characters. -/
def digitsVal (cs : List Char) : Nat := cs.foldl (fun a c => a * 10 + digitVal c) 0

/-- Models Python `str.strip()`: drop leading and trailing whitespace. -/
def stripChars (cs : List Char) : List Char :=
  ((cs.dropWhile isSpaceChar).reverse.dropWhile isSpaceChar).reverse

/-- Consume one expected literal character. -/
def expectChar (c : Char) : List Char → Option (List Char)
  | d :: rest => if d = c then some rest else none
  | [] => none

/-- Consume one or more whitespace characters (a literal blank in a `strptime`
format string compiles to the regex `\s+`). -/
def spaceRun : List Char → Option (List Char)
  | c :: rest => if isSpaceChar c then some (rest.dropWhile isSpaceChar) else none
  | [] => none

/-- Consume a maximal digit run whose length lies in `[lo, hi]` and whose value
satisfies `ok`; return the value and the rest of the input. -/
def digitField (lo hi : Nat) (ok : Nat → Bool) (cs : List Char) : Option (Nat × List Char) :=
  let p := digitRun cs
  if lo ≤ p.1.length && p.1.length ≤ hi && ok (digitsVal p.1) then
    some (digitsVal p.1, p.2)
  else none

/-! ## Dates and the calendar -/

/-- A calendar date, the key of the daily-totals mapping (`datetime.date`). -/
structure Date where
  year : Nat
  month : Nat
  day : Nat
deriving DecidableEq, Repr

/-- A parsed timestamp (`datetime.datetime`): date plus time of day. -/
structure DateTime where
  year : Nat
  month : Nat
  day : Nat
  hour : Nat
  minute : Nat
  second : Nat
  micro : Nat
deriving DecidableEq, Repr

/-- `datetime.date()`: discard the time-of-day component. -/
def DateTime.toDate (dt : DateTime) : Date := ⟨dt.year, dt.month, dt.day⟩

/-- Gregorian leap-year rule, as used by `datetime`. -/
def isLeapYear (y : Nat) : Bool := (y % 4 = 0 && y % 100 ≠ 0) || y % 400 = 0

/-- Number of days in month `m` of year `y` (months are 1-based). -/
def daysInMonth (y m : Nat) : Nat :=
  if m = 2 then (if isLeapYear y then 29 else 28)
  else if m = 4 ∨ m = 6 ∨ m = 9 ∨ m = 11 then 30
  else 31

/-- The range checks `datetime.datetime`'s constructor performs on a date. -/
def validDate (y m d : Nat) : Bool :=
  1 ≤ y && y ≤ 9999 && 1 ≤ m && m ≤ 12 && 1 ≤ d && d ≤ daysInMonth y m

/-- Days in year `y` strictly before month `m`. -/
def daysBeforeMonth (y m : Nat) : Nat :=
  ((List.range (m - 1)).map (fun i => daysInMonth y (i + 1))).sum

/-- Proleptic-Gregorian day number with `0001-01-01 ↦ 1` (`date.toordinal`). -/
def rataDie (d : Date) : Nat :=
  365 * (d.year - 1) + (d.year - 1) / 4 + (d.year - 1) / 400 - (d.year - 1) / 100
    + daysBeforeMonth d.year d.month + d.day

/-- `date.weekday()`: Monday is `0`, Sunday is `6`. -/
def weekday (d : Date) : Nat := (rataDie d + 6) % 7

open Function in
/-- Chronological (year, month, day lexicographic) order on dates, matching the
comparison order of Python `date` values used by `sorted`. -/
instance : LinearOrder Date :=
  LinearOrder.lift' (fun d => toLex (d.year, toLex (d.month, d.day)))
    (by
      intro a b h
      cases a; cases b
      simp [toLex, Prod.ext_iff] at h
      obtain ⟨h1, h2, h3⟩ := h
      simp_all)

/-! ## Timestamp parsing (`parse_timestamp`, lines 28–46) -/

/-- `datetime.strptime(text, "%Y-%m-%d %H:%M:%S")`, including the range
constraints of the compiled regex and of the `datetime` constructor.  Returns
`none` exactly when Python raises `ValueError`. -/
def strptimeYmdHms (cs : List Char) : Option DateTime :=
  match digitField 4 4 (fun _ => true) cs with
  | none => none
  | some (y, r1) =>
    match expectChar '-' r1 with
    | none => none
    | some r2 =>
      match digitField 1 2 (fun v => 1 ≤ v && v ≤ 12) r2 with
      | none => none
      | some (mo, r3) =>
        match expectChar '-' r3 with
        | none => none
        | some r4 =>
          match digitField 1 2 (fun v => 1 ≤ v && v ≤ 31) r4 with
          | none => none
          | some (d, r5) =>
            match spaceRun r5 with
            | none => none
            | some r6 =>
              match digitField 1 2 (fun v => v ≤ 23) r6 with
              | none => none
              | some (h, r7) =>
                match expectChar ':' r7 with
                | none => none
                | some r8 =>
                  match digitField 1 2 (fun v => v ≤ 59) r8 with
                  | none => none
                  | some (mi, r9) =>
                    match expectChar ':' r9 with
                    | none => none
                    | some r10 =>
                      match digitField 1 2 (fun v => v ≤ 59) r10 with
                      | none => none
                      | some (s, r11) =>
                        if r11 = [] && validDate y mo d then some ⟨y, mo, d, h, mi, s, 0⟩
                        else none

/-- `datetime.strptime(text, "%Y-%m-%d %H:%M")`, as above but without seconds. -/
def strptimeYmdHm (cs : List Char) : Option DateTime :=
  match digitField 4 4 (fun _ => true) cs with
  | none => none
  | some (y, r1) =>
    match expectChar '-' r1 with
    | none => none
    | some r2 =>
      match digitField 1 2 (fun v => 1 ≤ v && v ≤ 12) r2 with
      | none => none
      | some (mo, r3) =>
        match expectChar '-' r3 with
        | none => none
        | some r4 =>
          match digitField 1 2 (fun v => 1 ≤ v && v ≤ 31) r4 with
          | none => none
          | some (d, r5) =>
            match spaceRun r5 with
            | none => none
            | some r6 =>
              match digitField 1 2 (fun v => v ≤ 23) r6 with
              | none => none
              | some (h, r7) =>
                match expectChar ':' r7 with
                | none => none
                | some r8 =>
                  match digitField 1 2 (fun v => v ≤ 59) r8 with
                  | none => none
                  | some (mi, r9) =>
                    if r9 = [] && validDate y mo d then some ⟨y, mo, d, h, mi, 0, 0⟩
                    else none

/-- Exactly `n` digits. -/
def fixedDigits (n : Nat) (cs : List Char) : Option (Nat × List Char) :=
  digitField n n (fun _ => true) cs

/-- Fractional seconds: `.` or `,` followed by 1–6 digits, scaled to
microseconds; must consume the whole rest of the input. -/
def isoFraction (cs : List Char) : Option Nat :=
  match cs with
  | [] => some 0
  | c :: r =>
    if c = '.' ∨ c = ',' then
      let p := digitRun r
      if 1 ≤ p.1.length && p.1.length ≤ 6 && p.2 = List.nil then
        some (digitsVal p.1 * 10 ^ (6 - p.1.length))
      else none
    else none

/-- Time part of `datetime.fromisoformat` (extended format, no timezone):
`HH`, `HH:MM`, `HH:MM:SS`, or `HH:MM:SS.ffffff`. -/
def isoTime (y mo d : Nat) (cs : List Char) : Option DateTime :=
  match fixedDigits 2 cs with
  | none => none
  | some (h, r1) =>
    if h ≤ 23 then
      match r1 with
      | [] => some ⟨y, mo, d, h, 0, 0, 0⟩
      | c1 :: r2 =>
        if c1 = ':' then
          match fixedDigits 2 r2 with
          | none => none
          | some (mi, r3) =>
            if mi ≤ 59 then
              match r3 with
              | [] => some ⟨y, mo, d, h, mi, 0, 0⟩
              | c2 :: r4 =>
                if c2 = ':' then
                  match fixedDigits 2 r4 with
                  | none => none
                  | some (s, r5) =>
                    if s ≤ 59 then
                      match isoFraction r5 with
                      | none => none
                      | some mic => some ⟨y, mo, d, h, mi, s, mic⟩
                    else none
                else none
            else none
        else none
    else none

/-- `datetime.fromisoformat` on the stripped original text, modelled for the
extended ISO-8601 format without a timezone offset: `YYYY-MM-DD`, optionally
followed by a single separator character of any kind and a time.  A bare date
parses to midnight. -/
def fromisoformat (cs : List Char) : Option DateTime :=
  match fixedDigits 4 cs with
  | none => none
  | some (y, r1) =>
    match expectChar '-' r1 with
    | none => none
    | some r2 =>
      match fixedDigits 2 r2 with
      | none => none
      | some (mo, r3) =>
        match expectChar '-' r3 with
        | none => none
        | some r4 =>
          match fixedDigits 2 r4 with
          | none => none
          | some (d, r5) =>
            if validDate y mo d then
              match r5 with
              | [] => some ⟨y, mo, d, 0, 0, 0, 0⟩
              | _sep :: r6 => isoTime y mo d r6
            else none

/-- `parse_timestamp` (lines 28–46): strip the input, replace every `T` with a
blank, try `%Y-%m-%d %H:%M:%S` then `%Y-%m-%d %H:%M`, and finally fall back to
`datetime.fromisoformat` on the stripped original.  `none` models the
`ValueError` that propagates out when every attempt fails. -/
def parse_timestamp (ts : String) : Option DateTime :=
  let stripped := stripChars ts.data
  let text := stripped.map (fun c => if c = 'T' then ' ' else c)
  match strptimeYmdHms text with
  | some dt => some dt
  | none =>
    match strptimeYmdHm text with
    | some dt => some dt
    | none => fromisoformat stripped

/-! ## Numeric fields (`to_float`, lines 109–110) -/

/-- Sign prefix: consume an optional `+` or `-`. -/
def parseSign : List Char → Int × List Char
  | '+' :: r => (1, r)
  | '-' :: r => (-1, r)
  | cs => (1, cs)

/-- Build the rational value of a parsed decimal literal:
`sign * digits(int ++ frac) * 10 ^ (exp - frac.length)`. -/
def floatVal (sign : Int) (intDs fracDs : List Char) (ex : Int) : ℚ :=
  let num : Int := sign * (digitsVal (intDs ++ fracDs) : Int)
  let e : Int := ex - fracDs.length
  if 0 ≤ e then (num * 10 ^ e.toNat : Int) else (num : ℚ) / (10 ^ (-e).toNat : Nat)

/-- Exponent part of a float literal: empty, or `e`/`E`, optional sign, digits,
consuming the whole rest of the input. -/
def parseExponent : List Char → Option Int
  | [] => some 0
  | c :: r =>
    if c = 'e' ∨ c = 'E' then
      let (s, r1) := parseSign r
      let p := digitRun r1
      if p.1 ≠ [] ∧ p.2 = [] then some (s * digitsVal p.1) else none
    else none

/-- The nested `to_float` helper (lines 109–110): Python
`float(s.replace(",", "."))`, modelled for finite decimal literals
(optional sign, digits with an optional point, optional exponent, surrounding
whitespace).  `none` models the `ValueError` for a non-numeric field. -/
def to_float (s : String) : Option ℚ :=
  let cs := stripChars (s.data.map (fun c => if c = ',' then '.' else c))
  let (sign, r0) := parseSign cs
  let p := digitRun r0
  match p.2 with
  | [] => if p.1 = [] then none else some (floatVal sign p.1 [] 0)
  | c :: r1 =>
    if c = '.' then
      let q := digitRun r1
      if p.1 = [] ∧ q.1 = [] then none
      else
        match parseExponent q.2 with
        | none => none
        | some ex => some (floatVal sign p.1 q.1 ex)
    else
      if p.1 = [] then none
      else
        match parseExponent (c :: r1) with
        | none => none
        | some ex => some (floatVal sign p.1 [] ex)

/-! ## Aggregation (`compute_daily_totals`, lines 85–137) -/

/-- The insertion-ordered `defaultdict(lambda: [0.0] * 6)` of watt-hour sums. -/
abbrev DayMap := List (Date × List ℚ)

/-- The `[0.0] * 6` default bucket. -/
def zero6 : List ℚ := [0, 0, 0, 0, 0, 0]

/-- Componentwise addition of two six-element channel vectors. -/
def add6 (a b : List ℚ) : List ℚ := List.zipWith (· + ·) a b

/-- Dictionary lookup: the bucket stored for `day`, if any. -/
def findDay : DayMap → Date → Option (List ℚ)
  | [], _ => none
  | (d, vs) :: rest, day => if d = day then some vs else findDay rest day

/-- `totals_wh[day][i] += v` for the six channels at once: an existing bucket is
updated in place (its position is kept); a missing one is appended at the end,
zero-initialized, then added to — exactly `defaultdict` with insertion order. -/
def addToAssoc : DayMap → Date → List ℚ → DayMap
  | [], day, vals => [(day, add6 zero6 vals)]
  | (d, vs) :: rest, day, vals =>
    if d = day then (d, add6 vs vals) :: rest
    else (d, vs) :: addToAssoc rest day vals

/-- Parse one row of at least 7 fields: the timestamp, then the six channel
values in order (lines 104–117).  The first failing conversion yields the
`ValueError` that aborts the run. -/
def parseRow (row : List String) : Except String (Date × List ℚ) :=
  match parse_timestamp (row.getD 0 "") with
  | none => Except.error ("time data does not match a supported format: " ++ row.getD 0 "")
  | some dt =>
    match to_float (row.getD 1 "") with
    | none => Except.error ("could not convert string to float: " ++ row.getD 1 "")
    | some c1 =>
      match to_float (row.getD 2 "") with
      | none => Except.error ("could not convert string to float: " ++ row.getD 2 "")
      | some c2 =>
        match to_float (row.getD 3 "") with
        | none => Except.error ("could not convert string to float: " ++ row.getD 3 "")
        | some c3 =>
          match to_float (row.getD 4 "") with
          | none => Except.error ("could not convert string to float: " ++ row.getD 4 "")
          | some p1 =>
            match to_float (row.getD 5 "") with
            | none => Except.error ("could not convert string to float: " ++ row.getD 5 "")
            | some p2 =>
              match to_float (row.getD 6 "") with
              | none => Except.error ("could not convert string to float: " ++ row.getD 6 "")
              | some p3 => Except.ok (dt.toDate, [c1, c2, c3, p1, p2, p3])

/-- One iteration of the `for row in rows` loop (lines 99–124): a row with
fewer than 7 fields is skipped; otherwise its parsed channel values are added
to its date's bucket. -/
def foldRow (acc : DayMap) (row : List String) : Except String DayMap :=
  if row.length < 7 then Except.ok acc
  else
    match parseRow row with
    | Except.error e => Except.error e
    | Except.ok (day, vals) => Except.ok (addToAssoc acc day vals)

/-- The whole `for row in rows` loop, threading the accumulating mapping. -/
def foldRows (acc : DayMap) : List (List String) → Except String DayMap
  | [] => Except.ok acc
  | row :: rest =>
    match foldRow acc row with
    | Except.error e => Except.error e
    | Except.ok acc2 => foldRows acc2 rest

/-- The final watt-hour → kilowatt-hour conversion (lines 126–137): divide
every accumulated sum by 1000. -/
def mapDiv (m : DayMap) : DayMap :=
  m.map (fun p => (p.1, p.2.map (· / 1000)))

/-- `compute_daily_totals` (lines 85–137): fold every row into the watt-hour
mapping, then divide every accumulated sum by 1000 (lines 126–137). -/
def compute_daily_totals (rows : List (List String)) : Except String DayMap :=
  match foldRows [] rows with
  | Except.error e => Except.error e
  | Except.ok m => Except.ok (mapDiv m)

/-- One loop iteration of the per-row-conversion variant described by the
spec's unit-conversion note (§4.3): the six parsed channel values are divided
by 1000 before they are accumulated. -/
def foldRowPerrow (acc : DayMap) (row : List String) : Except String DayMap :=
  if row.length < 7 then Except.ok acc
  else
    match parseRow row with
    | Except.error e => Except.error e
    | Except.ok (day, vals) => Except.ok (addToAssoc acc day (vals.map (· / 1000)))

/-- The loop of the per-row-conversion variant. -/
def foldRowsPerrow (acc : DayMap) : List (List String) → Except String DayMap
  | [] => Except.ok acc
  | row :: rest =>
    match foldRowPerrow acc row with
    | Except.error e => Except.error e
    | Except.ok acc2 => foldRowsPerrow acc2 rest

/-- The per-row-conversion pipeline described by the spec's unit-conversion
note (§4.3): each channel value is divided by 1000 as its row is folded in, and
no division happens at the end.  Stated by the spec to be numerically
equivalent to `compute_daily_totals`. -/
def compute_daily_totals_perrow (rows : List (List String)) : Except String DayMap :=
  foldRowsPerrow [] rows

/-! ## Header detection (`is_header_row`, lines 73–82; `main`, lines 179–180) -/

/-- `is_header_row` (lines 73–82): the first column fails to parse as a
timestamp.  The `[]` case models the `IndexError` on `row[0]`, which the bare
`except Exception` also turns into `True`. -/
def is_header_row (row : List String) : Bool :=
  match row with
  | [] => true
  | s :: _ => (parse_timestamp s).isNone

/-- The header-dropping step of `main` (lines 179–180):
`if rows and is_header_row(rows[0]): rows = rows[1:]`. -/
def dropHeader (rows : List (List String)) : List (List String) :=
  match rows with
  | [] => []
  | r :: rest => if is_header_row r then rest else r :: rest

/-! ## Finnish formatting (`to_finnish_number`, lines 20–25; `FINNISH_WEEKDAYS`) -/

/-- `FINNISH_WEEKDAYS` (lines 9–17), as a function on `weekday` indices. -/
def FINNISH_WEEKDAYS : Nat → String
  | 0 => "maanantai"
  | 1 => "tiistai"
  | 2 => "keskiviikko"
  | 3 => "torstai"
  | 4 => "perjantai"
  | 5 => "lauantai"
  | 6 => "sunnuntai"
  | _ => ""

/-- Round to the nearest integer, ties to even — the rounding `"%.2f"` applies
to the scaled value. -/
def roundHalfEven (q : ℚ) : Int :=
  if q - ⌊q⌋ < 1 / 2 then ⌊q⌋
  else if 1 / 2 < q - ⌊q⌋ then ⌊q⌋ + 1
  else if ⌊q⌋ % 2 = 0 then ⌊q⌋ else ⌊q⌋ + 1

/-- Two-digit zero-padded decimal rendering of `n % 100`. -/
def pad2 (n : Nat) : String :=
  String.mk [Nat.digitChar (n / 10 % 10), Nat.digitChar (n % 10)]

/-- Four-digit zero-padded decimal rendering of `n % 10000`. -/
def pad4 (n : Nat) : String :=
  String.mk [Nat.digitChar (n / 1000 % 10), Nat.digitChar (n / 100 % 10),
             Nat.digitChar (n / 10 % 10), Nat.digitChar (n % 10)]

/-- `f"{value:.2f}"` for a non-negative value: round `100 * value` to an
integer, then print `whole,frac` with a two-digit fraction. -/
def finnishNonneg (q : ℚ) : String :=
  let n : Nat := (roundHalfEven (q * 100)).toNat
  toString (n / 100) ++ "," ++ pad2 (n % 100)

/-- `to_finnish_number` (lines 20–25): format with two decimals and replace the
decimal point by a comma. -/
def to_finnish_number (q : ℚ) : String :=
  if q < 0 then "-" ++ finnishNonneg (-q) else finnishNonneg q

/-! ## The report (`print_report`, lines 140–169) -/

/-- Left-justify to width `w` (`f"{s:<w}"`). -/
def padRightTo (s : String) (w : Nat) : String :=
  s ++ String.mk (List.replicate (w - s.length) ' ')

/-- Right-justify to width `w` (`f"{s:>w}"`). -/
def padLeftTo (s : String) (w : Nat) : String :=
  String.mk (List.replicate (w - s.length) ' ') ++ s

/-- `d.strftime("%d.%m.%Y")`. -/
def dateStrFi (d : Date) : String :=
  pad2 d.day ++ "." ++ pad2 d.month ++ "." ++ pad4 d.year

/-- One data line of the report (the f-string of lines 165–169). -/
def reportLine (d : Date) (vs : List ℚ) : String :=
  padRightTo (FINNISH_WEEKDAYS (weekday d)) 12 ++ " " ++ padRightTo (dateStrFi d) 10 ++ "   "
    ++ padLeftTo (to_finnish_number (vs.getD 0 0)) 6 ++ "  "
    ++ padLeftTo (to_finnish_number (vs.getD 1 0)) 6 ++ "  "
    ++ padLeftTo (to_finnish_number (vs.getD 2 0)) 6 ++ "         "
    ++ padLeftTo (to_finnish_number (vs.getD 3 0)) 6 ++ " "
    ++ padLeftTo (to_finnish_number (vs.getD 4 0)) 6 ++ " "
    ++ padLeftTo (to_finnish_number (vs.getD 5 0)) 6

/-- `sorted(daily.keys())` (line 151): the iteration order of the report. -/
def sortedDates (daily : DayMap) : List Date :=
  List.insertionSort (fun a b => a ≤ b) (daily.map Prod.fst)

/-- `print_report` (lines 140–169) as the list of strings passed to `print`:
the fixed banner, then one line per date in ascending date order. -/
def print_report (daily : DayMap) : List String :=
  ["Week 42 electricity consumption and production (kWh, by phase)\n",
   "Day          Date        Consumption [kWh]               Production [kWh]",
   "            (dd.mm.yyyy)  v1      v2      v3             v1     v2     v3",
   "---------------------------------------------------------------------------"]
  ++ (sortedDates daily).map (fun d => reportLine d ((findDay daily d).getD []))

/-! ## Auxiliary definitions used by the statements -/

/-- The aggregation state after the first `k` rows of the loop. -/
def partialTotals (rows : List (List String)) (k : Nat) : Except String DayMap :=
  foldRows [] (rows.take k)

/-- All channel values a row parses to are non-negative. -/
def RowNonneg (row : List String) : Prop :=
  ∀ d vs, parseRow row = Except.ok (d, vs) → ∀ q ∈ vs, 0 ≤ q

/-- Two rows on one date whose second row carries a negative channel value. -/
def rowsWithNeg : List (List String) :=
  [["2025-10-13 00:00:00", "100", "0", "0", "0", "0", "0"],
   ["2025-10-13 00:15:00", "-50", "0", "0", "0", "0", "0"]]

/-- Two rows on one date with only non-negative channel values. -/
def rowsNonneg2 : List (List String) :=
  [["2025-10-13 00:00:00", "100", "0", "0", "0", "0", "0"],
   ["2025-10-13 00:15:00", "50", "0", "0", "0", "0", "0"]]

/-- The zero-padded two-digit character rendering of `n % 100`. -/
def pad2Chars (n : Nat) : List Char := [Nat.digitChar (n / 10 % 10), Nat.digitChar (n % 10)]

/-- The zero-padded four-digit character rendering of `n % 10000`. -/
def pad4Chars (n : Nat) : List Char :=
  [Nat.digitChar (n / 1000 % 10), Nat.digitChar (n / 100 % 10),
   Nat.digitChar (n / 10 % 10), Nat.digitChar (n % 10)]

/-- A bare date in the `YYYY-MM-DD` form, with no time component. -/
def bareDateString (y m d : Nat) : String :=
  String.mk (pad4Chars y ++ '-' :: (pad2Chars m ++ '-' :: pad2Chars d))

/-! ## Basic facts about the row fold -/

theorem foldRow_short {acc : DayMap} {row : List String} (h : row.length < 7) :
    foldRow acc row = Except.ok acc := by
  simp [foldRow, h]

theorem foldRow_parsed {acc : DayMap} {row : List String} {day : Date} {vals : List ℚ}
    (h7 : ¬ row.length < 7) (hp : parseRow row = Except.ok (day, vals)) :
    foldRow acc row = Except.ok (addToAssoc acc day vals) := by
  simp [foldRow, h7, hp]

theorem foldRow_err {acc : DayMap} {row : List String} {e : String}
    (h7 : ¬ row.length < 7) (hp : parseRow row = Except.error e) :
    foldRow acc row = Except.error e := by
  simp [foldRow, h7, hp]

/-- Inversion principle for a successfully parsed row: the timestamp and all
six channel fields were individually parseable, in order. -/
theorem parseRow_ok_iff {row : List String} {day : Date} {vals : List ℚ} :
    parseRow row = Except.ok (day, vals) ↔
      ∃ dt c1 c2 c3 p1 p2 p3,
        parse_timestamp (row.getD 0 "") = some dt ∧
        to_float (row.getD 1 "") = some c1 ∧
        to_float (row.getD 2 "") = some c2 ∧
        to_float (row.getD 3 "") = some c3 ∧
        to_float (row.getD 4 "") = some p1 ∧
        to_float (row.getD 5 "") = some p2 ∧
        to_float (row.getD 6 "") = some p3 ∧
        day = dt.toDate ∧ vals = [c1, c2, c3, p1, p2, p3] := by
  cases h0 : parse_timestamp (row.getD 0 "") with
  | none => simp only [parseRow, h0]; simp
  | some dt =>
    cases h1 : to_float (row.getD 1 "") with
    | none => simp only [parseRow, h0, h1]; simp
    | some c1 =>
      cases h2 : to_float (row.getD 2 "") with
      | none => simp only [parseRow, h0, h1, h2]; simp
      | some c2 =>
        cases h3 : to_float (row.getD 3 "") with
        | none => simp only [parseRow, h0, h1, h2, h3]; simp
        | some c3 =>
          cases h4 : to_float (row.getD 4 "") with
          | none => simp only [parseRow, h0, h1, h2, h3, h4]; simp
          | some p1 =>
            cases h5 : to_float (row.getD 5 "") with
            | none => simp only [parseRow, h0, h1, h2, h3, h4, h5]; simp
            | some p2 =>
              cases h6 : to_float (row.getD 6 "") with
              | none => simp only [parseRow, h0, h1, h2, h3, h4, h5, h6]; simp
              | some p3 =>
                simp only [parseRow, h0, h1, h2, h3, h4, h5, h6, Except.ok.injEq,
                  Prod.mk.injEq, Option.some.injEq]
                constructor
                · rintro ⟨hd, hv⟩
                  exact ⟨dt, c1, c2, c3, p1, p2, p3, rfl, rfl, rfl, rfl, rfl, rfl, rfl,
                    hd.symm, hv.symm⟩
                · rintro ⟨dt', c1', c2', c3', p1', p2', p3', e0, e1, e2, e3, e4, e5, e6, hd, hv⟩
                  cases e0; cases e1; cases e2; cases e3; cases e4; cases e5; cases e6
                  exact ⟨hd.symm, hv.symm⟩

/-- A row that parses has at least 7 fields: with at most 6, `row[6]` defaults
to the empty string, which is not a float. -/
theorem parseRow_ok_length {row : List String} {x : Date × List ℚ}
    (h : parseRow row = Except.ok x) : 7 ≤ row.length := by
  by_contra hlt
  push_neg at hlt
  obtain ⟨day, vals⟩ := x
  obtain ⟨dt, c1, c2, c3, p1, p2, p3, -, -, -, -, -, -, h6, -, -⟩ := parseRow_ok_iff.mp h
  rw [List.getD_eq_default _ _ (by omega)] at h6
  exact Option.noConfusion ((rfl : to_float "" = none) ▸ h6)

/-- A row that parses yields exactly six channel values. -/
theorem parseRow_ok_val_length {row : List String} {day : Date} {vals : List ℚ}
    (h : parseRow row = Except.ok (day, vals)) : vals.length = 6 := by
  obtain ⟨dt, c1, c2, c3, p1, p2, p3, -, -, -, -, -, -, -, -, hv⟩ := parseRow_ok_iff.mp h
  rw [hv]
  rfl

/-- Skipping a short row leaves the whole fold unchanged, from any state. -/
theorem foldRows_skip_short {row : List String} (h : row.length < 7)
    (pre post : List (List String)) (acc : DayMap) :
    foldRows acc (pre ++ row :: post) = foldRows acc (pre ++ post) := by
  induction pre generalizing acc with
  | nil => simp [foldRows, foldRow_short h]
  | cons r rs ih =>
    simp only [List.cons_append, foldRows]
    cases foldRow acc r with
    | error e => rfl
    | ok acc2 => exact ih acc2

/-- If some row of the list makes `foldRow` fail from every state, the whole
fold fails. -/
theorem foldRows_err_of_mem {rows : List (List String)} {row : List String}
    (hmem : row ∈ rows) (hfail : ∀ acc : DayMap, ∃ e, foldRow acc row = Except.error e) :
    ∀ acc : DayMap, ∃ e, foldRows acc rows = Except.error e := by
  induction rows with
  | nil => cases hmem
  | cons r rs ih =>
    intro acc
    rcases List.mem_cons.mp hmem with hr | hr
    · subst hr
      obtain ⟨e, he⟩ := hfail acc
      exact ⟨e, by simp [foldRows, he]⟩
    · cases hacc : foldRow acc r with
      | error e => exact ⟨e, by simp [foldRows, hacc]⟩
      | ok acc2 =>
        obtain ⟨e, he⟩ := ih hr acc2
        exact ⟨e, by simp [foldRows, hacc, he]⟩

/-! ## Claim C5 — header detection -/

/-- C5: for a non-empty row list, the first row is classified as a header (and
`main` drops it) exactly when its first field does not parse as a timestamp; a
first row with a parseable first field is kept as data. -/
theorem C5_header_iff_unparseable (f : String) (fs : List String) (rest : List (List String)) :
    is_header_row (f :: fs) = (parse_timestamp f).isNone ∧
    dropHeader ((f :: fs) :: rest) =
      (if (parse_timestamp f).isNone then rest else (f :: fs) :: rest) := by
  exact ⟨rfl, rfl⟩

/-! ## Claim C6 — short rows are silently skipped -/

/-- C6: a row with fewer than 7 fields contributes nothing: the daily totals
with it are exactly the daily totals without it, whatever its contents, and no
error arises from it. -/
theorem C6_short_row_skipped (pre post : List (List String)) (row : List String)
    (h : row.length < 7) :
    compute_daily_totals (pre ++ row :: post) = compute_daily_totals (pre ++ post) := by
  unfold compute_daily_totals
  rw [foldRows_skip_short h]

/-- Witness for C6 at a concrete short row. -/
theorem C6_short_row_skipped_witness :
    compute_daily_totals [["2025-10-13 00:00:00", "100", "200", "300", "50", "60", "70"],
                          ["2025-10-13 00:15:00", "1", "2"]] =
      compute_daily_totals [["2025-10-13 00:00:00", "100", "200", "300", "50", "60", "70"]] :=
  C6_short_row_skipped [["2025-10-13 00:00:00", "100", "200", "300", "50", "60", "70"]] []
    ["2025-10-13 00:15:00", "1", "2"] (by decide)

/-! ## Claim C3 — a bad timestamp aborts the whole run -/

/-- C3: any row of full width whose first field fails timestamp parsing makes
the whole aggregation return an error — the failure is not skipped per-row but
aborts the entire computation. -/
theorem C3_bad_timestamp_aborts (rows : List (List String)) (row : List String)
    (hmem : row ∈ rows) (h7 : 7 ≤ row.length)
    (hbad : parse_timestamp (row.getD 0 "") = none) :
    ∃ e, compute_daily_totals rows = Except.error e := by
  have hp : parseRow row =
      Except.error ("time data does not match a supported format: " ++ row.getD 0 "") := by
    simp only [parseRow, hbad]
  have hfail : ∀ acc : DayMap, ∃ e, foldRow acc row = Except.error e := fun acc =>
    ⟨_, foldRow_err (by omega) hp⟩
  obtain ⟨e, he⟩ := foldRows_err_of_mem hmem hfail []
  exact ⟨e, by simp [compute_daily_totals, he]⟩

/-- Witness for C3: a header-like value in the middle of the data kills the
whole run. -/
theorem C3_bad_timestamp_aborts_witness :
    ∃ e, compute_daily_totals [["Timestamp", "c1", "c2", "c3", "p1", "p2", "p3"]] =
      Except.error e :=
  C3_bad_timestamp_aborts [["Timestamp", "c1", "c2", "c3", "p1", "p2", "p3"]]
    ["Timestamp", "c1", "c2", "c3", "p1", "p2", "p3"]
    (List.mem_singleton.mpr rfl) (by decide) (by decide)

/-! ## Claim C8 — post-aggregation conversion equals per-row conversion -/

theorem add6_map_div (a b : List ℚ) :
    (add6 a b).map (· / 1000) = add6 (a.map (· / 1000)) (b.map (· / 1000)) := by
  induction a generalizing b with
  | nil => simp [add6]
  | cons x xs ih =>
    cases b with
    | nil => simp [add6]
    | cons y ys =>
      simp only [add6, List.zipWith_cons_cons, List.map_cons] at *
      rw [add_div, ih]

theorem zero6_map_div : zero6.map (· / (1000 : ℚ)) = zero6 := by
  simp [zero6]

theorem addToAssoc_mapDiv (m : DayMap) (day : Date) (vals : List ℚ) :
    addToAssoc (mapDiv m) day (vals.map (· / 1000)) = mapDiv (addToAssoc m day vals) := by
  induction m with
  | nil => simp [addToAssoc, mapDiv, add6_map_div, zero6_map_div]
  | cons p rest ih =>
    obtain ⟨d, vs⟩ := p
    by_cases hd : d = day
    · simp [addToAssoc, mapDiv, hd, add6_map_div]
    · simp only [mapDiv, List.map_cons, addToAssoc, hd, if_false]
      simpa [mapDiv] using ih

theorem foldRowsPerrow_mapDiv (rows : List (List String)) :
    ∀ m : DayMap, foldRowsPerrow (mapDiv m) rows =
      (match foldRows m rows with
       | Except.error e => Except.error e
       | Except.ok st => Except.ok (mapDiv st)) := by
  induction rows with
  | nil => intro m; rfl
  | cons row rest ih =>
    intro m
    by_cases h7 : row.length < 7
    · simp only [foldRowsPerrow, foldRows, foldRowPerrow, foldRow, h7, if_true]
      exact ih m
    · cases hp : parseRow row with
      | error e =>
        simp [foldRowsPerrow, foldRows, foldRowPerrow, foldRow, h7, hp]
      | ok dv =>
        obtain ⟨day, vals⟩ := dv
        simp only [foldRowsPerrow, foldRows, foldRowPerrow, foldRow, h7, if_false, hp,
          addToAssoc_mapDiv]
        exact ih (addToAssoc m day vals)

/-- C8: converting watt-hours to kilowatt-hours once after the fold gives, for
every input, exactly the same result as dividing each row's values by 1000
before accumulating them. -/
theorem C8_conversion_equivalence (rows : List (List String)) :
    compute_daily_totals_perrow rows = compute_daily_totals rows := by
  have h := foldRowsPerrow_mapDiv rows []
  rw [show mapDiv [] = [] from rfl] at h
  unfold compute_daily_totals_perrow compute_daily_totals
  rw [h]

/-! ## Keys of the daily mapping -/

theorem keys_addToAssoc (m : DayMap) (day : Date) (vals : List ℚ) :
    (addToAssoc m day vals).map Prod.fst =
      (if day ∈ m.map Prod.fst then m.map Prod.fst else m.map Prod.fst ++ [day]) := by
  induction m with
  | nil => simp [addToAssoc]
  | cons p rest ih =>
    obtain ⟨d, vs⟩ := p
    by_cases hd : d = day
    · simp [addToAssoc, hd]
    · have hne : ¬ day = d := fun h => hd h.symm
      simp only [addToAssoc, hd, if_false, List.map_cons, List.mem_cons, hne, false_or, ih]
      by_cases hmem : day ∈ rest.map Prod.fst
      · simp [hmem]
      · simp [hmem]

theorem nodup_addToAssoc {m : DayMap} (h : (m.map Prod.fst).Nodup)
    (day : Date) (vals : List ℚ) : ((addToAssoc m day vals).map Prod.fst).Nodup := by
  rw [keys_addToAssoc]
  by_cases hmem : day ∈ m.map Prod.fst
  · simpa [hmem] using h
  · simp [hmem, List.nodup_append, h]

/-- The fold preserves distinctness of the date keys. -/
theorem foldRows_nodup {rows : List (List String)} :
    ∀ {acc st : DayMap}, (acc.map Prod.fst).Nodup → foldRows acc rows = Except.ok st →
      (st.map Prod.fst).Nodup := by
  induction rows with
  | nil =>
    intro acc st h hfold
    cases hfold
    exact h
  | cons row rest ih =>
    intro acc st h hfold
    by_cases h7 : row.length < 7
    · rw [foldRows, foldRow_short h7] at hfold
      exact ih h hfold
    · cases hp : parseRow row with
      | error e =>
        rw [foldRows, foldRow_err h7 hp] at hfold
        cases hfold
      | ok dv =>
        obtain ⟨day, vals⟩ := dv
        rw [foldRows, foldRow_parsed h7 hp] at hfold
        exact ih (nodup_addToAssoc h day vals) hfold

/-- The unit conversion does not change the keys. -/
theorem keys_mapDiv (m : DayMap) : (mapDiv m).map Prod.fst = m.map Prod.fst := by
  simp [mapDiv, List.map_map]

/-- Successful aggregation yields one entry per distinct date. -/
theorem compute_daily_totals_nodup {rows : List (List String)} {daily : DayMap}
    (h : compute_daily_totals rows = Except.ok daily) : (daily.map Prod.fst).Nodup := by
  unfold compute_daily_totals at h
  cases hm : foldRows [] rows with
  | error e => rw [hm] at h; cases h
  | ok m =>
    rw [hm] at h
    cases h
    rw [keys_mapDiv]
    exact foldRows_nodup (by simp) hm

/-! ## Claim C7 — report dates are strictly ascending -/

/-- C7: whatever the order of the input rows, the dates the report iterates
over (`sorted(daily.keys())`) are strictly ascending chronologically. -/
theorem C7_report_dates_sorted (rows : List (List String)) (daily : DayMap)
    (h : compute_daily_totals rows = Except.ok daily) :
    List.Sorted (· < ·) (sortedDates daily) := by
  have hnodup : ((daily.map Prod.fst).insertionSort (fun a b => a ≤ b)).Nodup :=
    (List.perm_insertionSort _ _).nodup_iff.mpr (compute_daily_totals_nodup h)
  exact List.Sorted.lt_of_le (List.sorted_insertionSort _ _) hnodup

/-- Evaluations of the parsers at the concrete strings used by the witnesses. -/
theorem pt_oct13_0000 : parse_timestamp "2025-10-13 00:00:00" = some ⟨2025, 10, 13, 0, 0, 0, 0⟩ := by
  decide

theorem pt_oct13_0015 : parse_timestamp "2025-10-13 00:15:00" = some ⟨2025, 10, 13, 0, 15, 0, 0⟩ := by
  decide

theorem pt_oct14_0000 : parse_timestamp "2025-10-14 00:00:00" = some ⟨2025, 10, 14, 0, 0, 0, 0⟩ := by
  decide

theorem tf_1000 : to_float "1000" = some 1000 := by decide

theorem tf_2000 : to_float "2000" = some 2000 := by decide

theorem tf_3000 : to_float "3000" = some 3000 := by decide

theorem tf_4000 : to_float "4000" = some 4000 := by decide

theorem tf_5000 : to_float "5000" = some 5000 := by decide

theorem tf_6000 : to_float "6000" = some 6000 := by decide

theorem tf_100 : to_float "100" = some 100 := by decide

theorem tf_200 : to_float "200" = some 200 := by decide

theorem tf_300 : to_float "300" = some 300 := by decide

theorem tf_50 : to_float "50" = some 50 := by decide

theorem tf_60 : to_float "60" = some 60 := by decide

theorem tf_70 : to_float "70" = some 70 := by decide

theorem tf_500 : to_float "500" = some 500 := by decide

theorem tf_0 : to_float "0" = some 0 := by decide

/-- The aggregation of the two witness rows with the later date first. -/
theorem totals_unordered_eval :
    compute_daily_totals
      [["2025-10-14 00:00:00", "1000", "2000", "3000", "4000", "5000", "6000"],
       ["2025-10-13 00:00:00", "1000", "2000", "3000", "4000", "5000", "6000"]] =
      Except.ok [(⟨2025, 10, 14⟩, [1, 2, 3, 4, 5, 6]), (⟨2025, 10, 13⟩, [1, 2, 3, 4, 5, 6])] := by
  norm_num [compute_daily_totals, foldRows, foldRow, parseRow, mapDiv,
    pt_oct13_0000, pt_oct14_0000, tf_1000, tf_2000, tf_3000, tf_4000, tf_5000, tf_6000,
    addToAssoc, add6, zero6, DateTime.toDate]

/-- Witness for C7: rows arriving with the later date first still give a
strictly ascending report. -/
theorem C7_report_dates_sorted_witness :
    List.Sorted (· < ·)
      (sortedDates [(⟨2025, 10, 14⟩, [1, 2, 3, 4, 5, 6]), (⟨2025, 10, 13⟩, [1, 2, 3, 4, 5, 6])]) :=
  C7_report_dates_sorted
    [["2025-10-14 00:00:00", "1000", "2000", "3000", "4000", "5000", "6000"],
     ["2025-10-13 00:00:00", "1000", "2000", "3000", "4000", "5000", "6000"]]
    [(⟨2025, 10, 14⟩, [1, 2, 3, 4, 5, 6]), (⟨2025, 10, 13⟩, [1, 2, 3, 4, 5, 6])]
    totals_unordered_eval

/-! ## Claim C2 — single-date runs sum each channel -/

/-- Folding rows that all parse to the same date `dd` onto a single-bucket
state accumulates their channel vectors into that bucket. -/
theorem foldRows_single_date {dd : Date} :
    ∀ {rows : List (List String)} {valss : List (List ℚ)},
      List.Forall₂ (fun row vs => parseRow row = Except.ok (dd, vs)) rows valss →
      ∀ acc : List ℚ, foldRows [(dd, acc)] rows = Except.ok [(dd, valss.foldl add6 acc)] := by
  intro rows valss h
  induction h with
  | nil => intro acc; rfl
  | cons hrow hrest ih =>
    intro acc
    rename_i row vs rows' valss'
    have h7 : ¬ row.length < 7 := by
      have := parseRow_ok_length hrow
      omega
    rw [foldRows, foldRow_parsed h7 hrow]
    have hadd : addToAssoc [(dd, acc)] dd vs = [(dd, add6 acc vs)] := by
      simp [addToAssoc]
    rw [hadd, List.foldl_cons]
    exact ih (add6 acc vs)

theorem add6_getD (a : List ℚ) :
    ∀ (b : List ℚ) (i : Nat), i < a.length → i < b.length →
      (add6 a b).getD i 0 = a.getD i 0 + b.getD i 0 := by
  induction a with
  | nil => intro b i h _; cases h
  | cons x xs ih =>
    intro b i ha hb
    cases b with
    | nil => cases hb
    | cons y ys =>
      cases i with
      | zero => simp [add6]
      | succ j =>
        simp only [List.length_cons] at ha hb
        simp only [add6, List.zipWith_cons_cons, List.getD_cons_succ]
        exact ih ys j (by omega) (by omega)

theorem add6_length (a b : List ℚ) : (add6 a b).length = min a.length b.length := by
  simp [add6]

theorem zero6_getD (i : Nat) : zero6.getD i 0 = 0 := by
  rcases i with _ | _ | _ | _ | _ | _ | j
  · rfl
  · rfl
  · rfl
  · rfl
  · rfl
  · rfl
  · simp [zero6, List.getD_eq_default]

/-- Index-wise reading of the channel-vector fold: entry `i` of the fold is the
sum of entry `i` across the rows, on top of the accumulator. -/
theorem foldl_add6_getD :
    ∀ (valss : List (List ℚ)) (acc : List ℚ), acc.length = 6 →
      (∀ vs ∈ valss, vs.length = 6) → ∀ i, i < 6 →
      (valss.foldl add6 acc).getD i 0 = acc.getD i 0 + (valss.map (fun vs => vs.getD i 0)).sum := by
  intro valss
  induction valss with
  | nil => intro acc _ _ i _; simp
  | cons vs valss' ih =>
    intro acc hacc hall i hi
    have hvs : vs.length = 6 := hall vs (by simp)
    have hlen : (add6 acc vs).length = 6 := by
      rw [add6_length, hacc, hvs]
      simp
    rw [List.foldl_cons, List.map_cons, List.sum_cons,
      ih (add6 acc vs) hlen (fun v hv => hall v (by simp [hv])) i hi,
      add6_getD acc vs i (by omega) (by omega)]
    ring

theorem getD_map_div (l : List ℚ) (i : Nat) :
    (l.map (· / 1000)).getD i 0 = l.getD i 0 / 1000 := by
  rw [List.getD_eq_getElem?_getD, List.getD_eq_getElem?_getD, List.getElem?_map]
  cases l[i]? with
  | none => simp
  | some x => simp

/-- Each value list produced along a `Forall₂` with `parseRow` has six
entries. -/
theorem forall₂_parseRow_lengths {dd : Date} :
    ∀ {rows : List (List String)} {valss : List (List ℚ)},
      List.Forall₂ (fun row vs => parseRow row = Except.ok (dd, vs)) rows valss →
      ∀ vs ∈ valss, vs.length = 6 := by
  intro rows valss h
  induction h with
  | nil => intro vs hvs; cases hvs
  | cons hrow hrest ih =>
    intro vs hvs
    rcases List.mem_cons.mp hvs with hv | hv
    · subst hv
      exact parseRow_ok_val_length hrow
    · exact ih vs hv

/-- C2: if every row parses and they all fall on one date `dd`, the result is a
single bucket for `dd`, and each channel's reported value is the sum of that
channel over the rows, divided by 1000. -/
theorem C2_single_date_totals (rows : List (List String)) (valss : List (List ℚ)) (dd : Date)
    (hne : rows ≠ [])
    (hall : List.Forall₂ (fun row vs => parseRow row = Except.ok (dd, vs)) rows valss) :
    compute_daily_totals rows = Except.ok [(dd, (valss.foldl add6 zero6).map (· / 1000))] ∧
    ∀ i, i < 6 →
      ((valss.foldl add6 zero6).map (· / 1000)).getD i 0 =
        (valss.map (fun vs => vs.getD i 0)).sum / 1000 := by
  constructor
  · cases hall with
    | nil => exact absurd rfl hne
    | cons hrow hrest =>
      rename_i row vs rows' valss'
      have h7 : ¬ row.length < 7 := by
        have := parseRow_ok_length hrow
        omega
      unfold compute_daily_totals
      rw [foldRows, foldRow_parsed h7 hrow]
      show (match foldRows [(dd, add6 zero6 vs)] rows' with
            | Except.error e => Except.error e
            | Except.ok m => Except.ok (mapDiv m)) = _
      rw [foldRows_single_date hrest (add6 zero6 vs)]
      simp [mapDiv, List.foldl_cons]
  · intro i hi
    rw [getD_map_div,
      foldl_add6_getD valss zero6 rfl (forall₂_parseRow_lengths hall) i hi,
      zero6_getD, zero_add]

/-- Evaluation of the two equal witness rows. -/
theorem parseRow_monday1_eval :
    parseRow ["2025-10-13 00:00:00", "100", "200", "300", "50", "60", "70"] =
      Except.ok (⟨2025, 10, 13⟩, [100, 200, 300, 50, 60, 70]) := by
  norm_num [parseRow, pt_oct13_0000, tf_100, tf_200, tf_300, tf_50, tf_60, tf_70,
    DateTime.toDate]

theorem parseRow_monday2_eval :
    parseRow ["2025-10-13 00:15:00", "100", "200", "300", "50", "60", "70"] =
      Except.ok (⟨2025, 10, 13⟩, [100, 200, 300, 50, 60, 70]) := by
  norm_num [parseRow, pt_oct13_0015, tf_100, tf_200, tf_300, tf_50, tf_60, tf_70,
    DateTime.toDate]

/-- Witness for C2 at the two Monday rows of the end-to-end scenario. -/
theorem C2_single_date_totals_witness :
    compute_daily_totals
        [["2025-10-13 00:00:00", "100", "200", "300", "50", "60", "70"],
         ["2025-10-13 00:15:00", "100", "200", "300", "50", "60", "70"]] =
      Except.ok [(⟨2025, 10, 13⟩,
        (([[100, 200, 300, 50, 60, 70], [100, 200, 300, 50, 60, 70]] :
            List (List ℚ)).foldl add6 zero6).map (· / 1000))] ∧
    ∀ i, i < 6 →
      ((([[100, 200, 300, 50, 60, 70], [100, 200, 300, 50, 60, 70]] :
          List (List ℚ)).foldl add6 zero6).map (· / 1000)).getD i 0 =
        (([[100, 200, 300, 50, 60, 70], [100, 200, 300, 50, 60, 70]] :
            List (List ℚ)).map (fun vs => vs.getD i 0)).sum / 1000 :=
  C2_single_date_totals
    [["2025-10-13 00:00:00", "100", "200", "300", "50", "60", "70"],
     ["2025-10-13 00:15:00", "100", "200", "300", "50", "60", "70"]]
    [[100, 200, 300, 50, 60, 70], [100, 200, 300, 50, 60, 70]] ⟨2025, 10, 13⟩
    (by simp)
    (List.Forall₂.cons parseRow_monday1_eval
      (List.Forall₂.cons parseRow_monday2_eval List.Forall₂.nil))

/-! ## Claim C4 — aggregation invariants -/

theorem foldRows_append (l1 l2 : List (List String)) :
    ∀ acc : DayMap, foldRows acc (l1 ++ l2) =
      (match foldRows acc l1 with
       | Except.error e => Except.error e
       | Except.ok m => foldRows m l2) := by
  induction l1 with
  | nil => intro acc; rfl
  | cons row rest ih =>
    intro acc
    simp only [List.cons_append, foldRows]
    cases foldRow acc row with
    | error e => rfl
    | ok acc2 => exact ih acc2

theorem findDay_mem {m : DayMap} {day : Date} {vs : List ℚ}
    (h : findDay m day = some vs) : (day, vs) ∈ m := by
  induction m with
  | nil => cases h
  | cons p rest ih =>
    obtain ⟨d, ws⟩ := p
    by_cases hd : d = day
    · subst hd
      simp only [findDay, if_pos rfl] at h
      cases h
      simp
    · simp only [findDay, if_neg hd] at h
      simp [ih h]

theorem findDay_addToAssoc_some {m : DayMap} {day : Date} {vs : List ℚ}
    (h : findDay m day = some vs) (vals : List ℚ) :
    findDay (addToAssoc m day vals) day = some (add6 vs vals) := by
  induction m with
  | nil => cases h
  | cons p rest ih =>
    obtain ⟨d, ws⟩ := p
    by_cases hd : d = day
    · subst hd
      simp only [findDay, if_pos rfl] at h
      cases h
      simp [addToAssoc, findDay]
    · simp only [findDay, if_neg hd] at h
      simp [addToAssoc, findDay, hd, ih h]

theorem findDay_addToAssoc_none {m : DayMap} {day : Date}
    (h : findDay m day = none) (vals : List ℚ) :
    findDay (addToAssoc m day vals) day = some (add6 zero6 vals) := by
  induction m with
  | nil => simp [addToAssoc, findDay]
  | cons p rest ih =>
    obtain ⟨d, ws⟩ := p
    by_cases hd : d = day
    · subst hd
      simp [findDay] at h
    · simp only [findDay, if_neg hd] at h
      simp [addToAssoc, findDay, hd, ih h]

theorem findDay_addToAssoc_ne {m : DayMap} {day d : Date} (hne : d ≠ day) (vals : List ℚ) :
    findDay (addToAssoc m day vals) d = findDay m d := by
  induction m with
  | nil =>
    have h : ¬ day = d := fun h => hne h.symm
    simp [addToAssoc, findDay, h]
  | cons p rest ih =>
    obtain ⟨d0, ws⟩ := p
    by_cases hd : d0 = day
    · subst hd
      have h : ¬ d0 = d := fun h => hne (h ▸ rfl)
      simp [addToAssoc, findDay, h]
    · by_cases hd0 : d0 = d
      · subst hd0
        simp [addToAssoc, findDay, hd]
      · simp [addToAssoc, findDay, hd, hd0, ih]

theorem addToAssoc_bucket_length {m : DayMap} (h : ∀ p ∈ m, (Prod.snd p).length = 6)
    {day : Date} {vals : List ℚ} (hv : vals.length = 6) :
    ∀ p ∈ addToAssoc m day vals, (Prod.snd p).length = 6 := by
  induction m with
  | nil =>
    intro p hp
    simp only [addToAssoc, List.mem_singleton] at hp
    subst hp
    simp [add6_length, hv, zero6]
  | cons q rest ih =>
    obtain ⟨d, ws⟩ := q
    by_cases hd : d = day
    · subst hd
      intro p hp
      rw [show addToAssoc ((d, ws) :: rest) d vals = (d, add6 ws vals) :: rest from by
        simp [addToAssoc]] at hp
      rcases List.mem_cons.mp hp with h1 | h1
      · subst h1
        have hws : ws.length = 6 := h (d, ws) (by simp)
        simp [add6_length, hws, hv]
      · exact h p (List.mem_cons_of_mem _ h1)
    · intro p hp
      rw [show addToAssoc ((d, ws) :: rest) day vals = (d, ws) :: addToAssoc rest day vals from by
        simp [addToAssoc, hd]] at hp
      rcases List.mem_cons.mp hp with h1 | h1
      · subst h1
        exact h (d, ws) (by simp)
      · exact ih (fun q hq => h q (List.mem_cons_of_mem _ hq)) p h1

theorem foldRows_bucket_length {rows : List (List String)} :
    ∀ {acc st : DayMap}, (∀ p ∈ acc, (Prod.snd p).length = 6) →
      foldRows acc rows = Except.ok st → ∀ p ∈ st, (Prod.snd p).length = 6 := by
  induction rows with
  | nil =>
    intro acc st h hfold
    cases hfold
    exact h
  | cons row rest ih =>
    intro acc st h hfold
    by_cases h7 : row.length < 7
    · rw [foldRows, foldRow_short h7] at hfold
      exact ih h hfold
    · cases hp : parseRow row with
      | error e =>
        rw [foldRows, foldRow_err h7 hp] at hfold
        cases hfold
      | ok dv =>
        obtain ⟨day, vals⟩ := dv
        rw [foldRows, foldRow_parsed h7 hp] at hfold
        exact ih (addToAssoc_bucket_length h (parseRow_ok_val_length hp)) hfold

theorem forall₂_le_add6 {vs vals : List ℚ} (h : vs.length = vals.length)
    (hpos : ∀ q ∈ vals, 0 ≤ q) : List.Forall₂ (· ≤ ·) vs (add6 vs vals) := by
  induction vs generalizing vals with
  | nil => simp [add6]
  | cons x xs ih =>
    cases vals with
    | nil => cases h
    | cons y ys =>
      simp only [add6, List.zipWith_cons_cons]
      refine List.Forall₂.cons ?_ (ih (by simpa using h) (fun q hq => hpos q (by simp [hq])))
      have : 0 ≤ y := hpos y (by simp)
      linarith

/-- C4 as amended: provided every parsed channel value is non-negative, each
date bucket's six sums only grow as a further row is folded in; independently,
the mapping always has one entry per distinct date, and an entry appears only
when the row just folded carries its date, initialized to zero before that
row's values are added. -/
theorem C4_invariants_amended (rows : List (List String)) (k : Nat) (st st' : DayMap)
    (hst : partialTotals rows k = Except.ok st)
    (hst' : partialTotals rows (k + 1) = Except.ok st') :
    (st.map Prod.fst).Nodup ∧
    ((∀ row ∈ rows, RowNonneg row) →
      ∀ day vs, findDay st day = some vs →
        ∃ vs', findDay st' day = some vs' ∧ List.Forall₂ (· ≤ ·) vs vs') ∧
    (∀ day vs', findDay st day = none → findDay st' day = some vs' →
      ∃ vs, parseRow (rows.getD k []) = Except.ok (day, vs) ∧ vs' = add6 zero6 vs) := by
  have hnodup : (st.map Prod.fst).Nodup := foldRows_nodup (by simp) hst
  have hbuckets : ∀ p ∈ st, (Prod.snd p).length = 6 := foldRows_bucket_length (by simp) hst
  have hsucc : foldRows st (rows[k]?.toList) = Except.ok st' := by
    have h2 := hst'
    unfold partialTotals at h2
    rw [List.take_succ, foldRows_append] at h2
    have h1 := hst
    unfold partialTotals at h1
    rw [h1] at h2
    exact h2
  refine ⟨hnodup, ?_, ?_⟩
  · intro hnn day vs hvs
    cases hk : rows[k]? with
    | none =>
      rw [hk] at hsucc
      cases hsucc
      exact ⟨vs, hvs, List.forall₂_same.mpr (fun x _ => le_refl x)⟩
    | some row =>
      rw [hk] at hsucc
      by_cases h7 : row.length < 7
      · rw [show (some row).toList = [row] from rfl, foldRows, foldRow_short h7] at hsucc
        cases hsucc
        exact ⟨vs, hvs, List.forall₂_same.mpr (fun x _ => le_refl x)⟩
      · cases hp : parseRow row with
        | error e =>
          rw [show (some row).toList = [row] from rfl, foldRows, foldRow_err h7 hp] at hsucc
          cases hsucc
        | ok dv =>
          obtain ⟨day0, vals⟩ := dv
          rw [show (some row).toList = [row] from rfl, foldRows, foldRow_parsed h7 hp] at hsucc
          cases hsucc
          have hrow_mem : row ∈ rows := by
            have := List.getElem?_eq_some_iff.mp hk
            obtain ⟨hlt, hget⟩ := this
            exact hget ▸ List.getElem_mem hlt
          have hpos : ∀ q ∈ vals, 0 ≤ q := hnn row hrow_mem day0 vals hp
          by_cases hd : day = day0
          · subst hd
            exact ⟨add6 vs vals, findDay_addToAssoc_some hvs vals,
              forall₂_le_add6 (by
                rw [hbuckets (day, vs) (findDay_mem hvs), parseRow_ok_val_length hp])
                hpos⟩
          · exact ⟨vs, by rw [findDay_addToAssoc_ne hd vals]; exact hvs,
              List.forall₂_same.mpr (fun x _ => le_refl x)⟩
  · intro day vs' hnone hsome
    cases hk : rows[k]? with
    | none =>
      rw [hk] at hsucc
      cases hsucc
      rw [hnone] at hsome
      cases hsome
    | some row =>
      rw [hk] at hsucc
      by_cases h7 : row.length < 7
      · rw [show (some row).toList = [row] from rfl, foldRows, foldRow_short h7] at hsucc
        cases hsucc
        rw [hnone] at hsome
        cases hsome
      · cases hp : parseRow row with
        | error e =>
          rw [show (some row).toList = [row] from rfl, foldRows, foldRow_err h7 hp] at hsucc
          cases hsucc
        | ok dv =>
          obtain ⟨day0, vals⟩ := dv
          rw [show (some row).toList = [row] from rfl, foldRows, foldRow_parsed h7 hp] at hsucc
          cases hsucc
          by_cases hd : day = day0
          · subst hd
            rw [findDay_addToAssoc_none hnone vals] at hsome
            cases hsome
            have hrow : rows.getD k [] = row := by
              rw [List.getD_eq_getElem?_getD, hk]
              rfl
            exact ⟨vals, hrow ▸ hp, rfl⟩
          · rw [findDay_addToAssoc_ne hd vals, hnone] at hsome
            cases hsome

theorem tf_neg50 : to_float "-50" = some (-50) := by decide

theorem rowsWithNeg_partial1 :
    partialTotals rowsWithNeg 1 = Except.ok [(⟨2025, 10, 13⟩, [100, 0, 0, 0, 0, 0])] := by
  norm_num [partialTotals, rowsWithNeg, List.take_succ_cons, List.take_zero,
    foldRows, foldRow, parseRow, pt_oct13_0000, tf_100, tf_0,
    addToAssoc, add6, zero6, DateTime.toDate]

theorem rowsWithNeg_partial2 :
    partialTotals rowsWithNeg 2 = Except.ok [(⟨2025, 10, 13⟩, [50, 0, 0, 0, 0, 0])] := by
  norm_num [partialTotals, rowsWithNeg, List.take_succ_cons, List.take_zero,
    foldRows, foldRow, parseRow, pt_oct13_0000, pt_oct13_0015, tf_100, tf_0, tf_neg50,
    addToAssoc, add6, zero6, DateTime.toDate]

/-- C4's universal monotonicity claim is false on the code: with a negative
channel value in the second row, the accumulated channel-1 sum of 2025-10-13
drops from 100 to 50 when that row is folded in. -/
theorem C4_monotonicity_counterexample :
    partialTotals rowsWithNeg 1 = Except.ok [(⟨2025, 10, 13⟩, [100, 0, 0, 0, 0, 0])] ∧
    partialTotals rowsWithNeg 2 = Except.ok [(⟨2025, 10, 13⟩, [50, 0, 0, 0, 0, 0])] ∧
    findDay [(⟨2025, 10, 13⟩, ([100, 0, 0, 0, 0, 0] : List ℚ))] ⟨2025, 10, 13⟩ =
      some [100, 0, 0, 0, 0, 0] ∧
    findDay [(⟨2025, 10, 13⟩, ([50, 0, 0, 0, 0, 0] : List ℚ))] ⟨2025, 10, 13⟩ =
      some [50, 0, 0, 0, 0, 0] ∧
    ¬ ((100 : ℚ) ≤ 50) := by
  refine ⟨rowsWithNeg_partial1, rowsWithNeg_partial2, ?_, ?_, by norm_num⟩
  · simp [findDay]
  · simp [findDay]

theorem rowsNonneg2_partial1 :
    partialTotals rowsNonneg2 1 = Except.ok [(⟨2025, 10, 13⟩, [100, 0, 0, 0, 0, 0])] := by
  norm_num [partialTotals, rowsNonneg2, List.take_succ_cons, List.take_zero,
    foldRows, foldRow, parseRow, pt_oct13_0000, tf_100, tf_0,
    addToAssoc, add6, zero6, DateTime.toDate]

theorem rowsNonneg2_partial2 :
    partialTotals rowsNonneg2 2 = Except.ok [(⟨2025, 10, 13⟩, [150, 0, 0, 0, 0, 0])] := by
  norm_num [partialTotals, rowsNonneg2, List.take_succ_cons, List.take_zero,
    foldRows, foldRow, parseRow, pt_oct13_0000, pt_oct13_0015, tf_100, tf_0, tf_50,
    addToAssoc, add6, zero6, DateTime.toDate]

/-- Witness for the amended C4 at a concrete non-negative two-row input. -/
theorem C4_invariants_amended_witness :
    (([(⟨2025, 10, 13⟩, ([100, 0, 0, 0, 0, 0] : List ℚ))] : DayMap).map Prod.fst).Nodup ∧
    ((∀ row ∈ rowsNonneg2, RowNonneg row) →
      ∀ day vs, findDay [(⟨2025, 10, 13⟩, ([100, 0, 0, 0, 0, 0] : List ℚ))] day = some vs →
        ∃ vs', findDay [(⟨2025, 10, 13⟩, ([150, 0, 0, 0, 0, 0] : List ℚ))] day = some vs' ∧
          List.Forall₂ (· ≤ ·) vs vs') ∧
    (∀ day vs', findDay [(⟨2025, 10, 13⟩, ([100, 0, 0, 0, 0, 0] : List ℚ))] day = none →
      findDay [(⟨2025, 10, 13⟩, ([150, 0, 0, 0, 0, 0] : List ℚ))] day = some vs' →
      ∃ vs, parseRow (rowsNonneg2.getD 1 []) = Except.ok (day, vs) ∧ vs' = add6 zero6 vs) :=
  C4_invariants_amended rowsNonneg2 1
    [(⟨2025, 10, 13⟩, [100, 0, 0, 0, 0, 0])] [(⟨2025, 10, 13⟩, [150, 0, 0, 0, 0, 0])]
    rowsNonneg2_partial1 rowsNonneg2_partial2

/-! ## Claim C9 — two decimal digits and a decimal comma -/

theorem str_append_assoc (a b c : String) : a ++ b ++ c = a ++ (b ++ c) := by
  cases a; cases b; cases c
  exact congrArg String.mk (List.append_assoc _ _ _)

/-- Formatting any exact hundredth: `m/100` renders as the whole part, a comma,
and the two-digit remainder. -/
theorem finnish_div100 (m : Nat) :
    to_finnish_number ((m : ℚ) / 100) = toString (m / 100) ++ "," ++ pad2 (m % 100) := by
  have h0 : ¬ ((m : ℚ) / 100 < 0) := by
    rw [not_lt]
    positivity
  have h1 : ((m : ℚ) / 100) * 100 = (m : ℚ) := by field_simp
  have h2 : roundHalfEven ((m : ℚ)) = (m : ℤ) := by
    simp [roundHalfEven, Int.floor_natCast]
  unfold to_finnish_number
  rw [if_neg h0]
  unfold finnishNonneg
  rw [h1, h2, Int.toNat_natCast]

theorem digitChar_isDigit_of_lt : ∀ k, k < 10 → (Nat.digitChar k).isDigit = true := by decide

theorem pad2_length (n : Nat) : (pad2 n).length = 2 := rfl

theorem pad2_all_digits (n : Nat) : (pad2 n).data.all Char.isDigit = true := by
  simp only [pad2, List.all_cons, List.all_nil, Bool.and_true, Bool.and_eq_true]
  exact ⟨digitChar_isDigit_of_lt _ (Nat.mod_lt _ (by norm_num)),
         digitChar_isDigit_of_lt _ (Nat.mod_lt _ (by norm_num))⟩

/-- C9: every formatted value is some prefix, a comma, and exactly two decimal
digits; in particular `12.3` renders as `"12,30"` and `0.0` as `"0,00"`. -/
theorem C9_two_decimal_finnish_format :
    (∀ q : ℚ, ∃ a b : String, to_finnish_number q = a ++ "," ++ b ∧
      b.length = 2 ∧ b.data.all Char.isDigit = true) ∧
    to_finnish_number (123 / 10 : ℚ) = "12,30" ∧
    to_finnish_number (0 : ℚ) = "0,00" := by
  refine ⟨?_, ?_, ?_⟩
  · intro q
    by_cases hq : q < 0
    · refine ⟨"-" ++ toString ((roundHalfEven (-q * 100)).toNat / 100),
        pad2 ((roundHalfEven (-q * 100)).toNat % 100), ?_, pad2_length _, pad2_all_digits _⟩
      unfold to_finnish_number finnishNonneg
      rw [if_pos hq, str_append_assoc, str_append_assoc, str_append_assoc]
    · refine ⟨toString ((roundHalfEven (q * 100)).toNat / 100),
        pad2 ((roundHalfEven (q * 100)).toNat % 100), ?_, pad2_length _, pad2_all_digits _⟩
      unfold to_finnish_number finnishNonneg
      rw [if_neg hq]
  · rw [show (123 / 10 : ℚ) = ((1230 : ℕ) : ℚ) / 100 from by norm_num, finnish_div100 1230]
    decide
  · rw [show (0 : ℚ) = ((0 : ℕ) : ℚ) / 100 from by norm_num, finnish_div100 0]
    decide

/-! ## Claim C10 — bare `YYYY-MM-DD` dates parse via the ISO fallback -/

theorem digitChar_isDig : ∀ k, k < 10 → isDigitChar (Nat.digitChar k) = true := by decide

theorem digitChar_val : ∀ k, k < 10 → digitVal (Nat.digitChar k) = k := by decide

theorem digitChar_notSpace : ∀ k, k < 10 → isSpaceChar (Nat.digitChar k) = false := by decide

theorem digitChar_neT : ∀ k, k < 10 → Nat.digitChar k ≠ 'T' := by decide

theorem pad2Chars_digits (n : Nat) : ∀ c ∈ pad2Chars n, isDigitChar c = true := by
  intro c hc
  simp only [pad2Chars, List.mem_cons, List.not_mem_nil, or_false] at hc
  rcases hc with h | h <;> subst h <;> exact digitChar_isDig _ (Nat.mod_lt _ (by norm_num))

theorem pad4Chars_digits (n : Nat) : ∀ c ∈ pad4Chars n, isDigitChar c = true := by
  intro c hc
  simp only [pad4Chars, List.mem_cons, List.not_mem_nil, or_false] at hc
  rcases hc with h | h | h | h <;> subst h <;> exact digitChar_isDig _ (Nat.mod_lt _ (by norm_num))

theorem digitRun_append (ds rest : List Char) (hds : ∀ c ∈ ds, isDigitChar c = true)
    (hrest : ∀ c, rest.head? = some c → isDigitChar c = false) :
    digitRun (ds ++ rest) = (ds, rest) := by
  induction ds with
  | nil =>
    cases rest with
    | nil => rfl
    | cons c cs => simp [digitRun, hrest c rfl]
  | cons c cs ih =>
    have hc : isDigitChar c = true := hds c (by simp)
    simp only [List.cons_append, digitRun, hc, if_true, List.append_eq]
    rw [ih (fun x hx => hds x (by simp [hx]))]

theorem digitsVal_pad2 (n : Nat) (h : n < 100) : digitsVal (pad2Chars n) = n := by
  simp only [digitsVal, pad2Chars, List.foldl_cons, List.foldl_nil,
    digitChar_val _ (Nat.mod_lt _ (by norm_num))]
  omega

theorem digitsVal_pad4 (n : Nat) (h : n < 10000) : digitsVal (pad4Chars n) = n := by
  simp only [digitsVal, pad4Chars, List.foldl_cons, List.foldl_nil,
    digitChar_val _ (Nat.mod_lt _ (by norm_num))]
  omega

theorem digitField_eval (lo hi : Nat) (ok : Nat → Bool) (ds rest : List Char)
    (hds : ∀ c ∈ ds, isDigitChar c = true)
    (hrest : ∀ c, rest.head? = some c → isDigitChar c = false)
    (hlo : lo ≤ ds.length) (hhi : ds.length ≤ hi) (hok : ok (digitsVal ds) = true) :
    digitField lo hi ok (ds ++ rest) = some (digitsVal ds, rest) := by
  unfold digitField
  rw [digitRun_append ds rest hds hrest]
  simp [hlo, hhi, hok]

theorem daysInMonth_le (y m : Nat) : daysInMonth y m ≤ 31 := by
  unfold daysInMonth
  split
  · split <;> omega
  · split <;> omega

theorem expectChar_eval (c : Char) (rest : List Char) : expectChar c (c :: rest) = some rest := by
  simp [expectChar]

theorem spaceRun_nil : spaceRun [] = none := rfl

theorem dropWhile_head_false {p : Char → Bool} {l : List Char}
    (h : ∀ c, l.head? = some c → p c = false) : l.dropWhile p = l := by
  cases l with
  | nil => rfl
  | cons c cs => simp [List.dropWhile, h c rfl]

theorem stripChars_id {cs : List Char} (h : ∀ c ∈ cs, isSpaceChar c = false) :
    stripChars cs = cs := by
  unfold stripChars
  rw [dropWhile_head_false (fun c hc => h c (List.mem_of_mem_head? hc)),
    dropWhile_head_false (fun c hc => h c (List.mem_reverse.mp (List.mem_of_mem_head? hc))),
    List.reverse_reverse]

theorem mapT_id {cs : List Char} (h : ∀ c ∈ cs, c ≠ 'T') :
    cs.map (fun c => if c = 'T' then ' ' else c) = cs := by
  induction cs with
  | nil => rfl
  | cons c cs ih =>
    have hc : ¬ c = 'T' := h c (by simp)
    simp only [List.map_cons, hc, if_false]
    rw [ih (fun x hx => h x (by simp [hx]))]

theorem bareDate_chars_not_space (y m d : Nat) :
    ∀ c ∈ pad4Chars y ++ '-' :: (pad2Chars m ++ '-' :: pad2Chars d), isSpaceChar c = false := by
  intro c hc
  simp only [List.mem_append, List.mem_cons] at hc
  have hdig : isDigitChar c = true → isSpaceChar c = false := by
    intro h
    simp only [isDigitChar, Bool.and_eq_true, decide_eq_true_eq] at h
    simp only [isSpaceChar, Char.isWhitespace]
    rcases h with ⟨h1, h2⟩
    have : c ≠ ' ' ∧ c ≠ '\t' ∧ c ≠ '\n' ∧ c ≠ '\x0d' := by
      refine ⟨?_, ?_, ?_, ?_⟩ <;> (intro he; subst he; simp at h1 h2)
    simp [this.1, this.2.1, this.2.2.1, this.2.2.2]
  rcases hc with h | h | h | h
  · exact hdig (pad4Chars_digits y c h)
  · subst h; decide
  · exact hdig (pad2Chars_digits m c h)
  · rcases h with h | h
    · subst h; decide
    · exact hdig (pad2Chars_digits d c h)

theorem bareDate_chars_not_T (y m d : Nat) :
    ∀ c ∈ pad4Chars y ++ '-' :: (pad2Chars m ++ '-' :: pad2Chars d), c ≠ 'T' := by
  intro c hc
  simp only [List.mem_append, List.mem_cons] at hc
  have hdig : isDigitChar c = true → c ≠ 'T' := by
    intro h he
    subst he
    simp [isDigitChar] at h
  rcases hc with h | h | h | h
  · exact hdig (pad4Chars_digits y c h)
  · subst h; decide
  · exact hdig (pad2Chars_digits m c h)
  · rcases h with h | h
    · subst h; decide
    · exact hdig (pad2Chars_digits d c h)

/-- Neither `strptime` format accepts a bare date: after the day digits both
expect a blank separator and find the end of the input. -/
theorem strptime_bareDate_none (y m d : Nat) (hm1 : 1 ≤ m) (hm : m ≤ 12)
    (hd1 : 1 ≤ d) (hd : d ≤ 31) :
    strptimeYmdHms (pad4Chars y ++ '-' :: (pad2Chars m ++ '-' :: pad2Chars d)) = none ∧
    strptimeYmdHm (pad4Chars y ++ '-' :: (pad2Chars m ++ '-' :: pad2Chars d)) = none := by
  have h1 := digitField_eval 4 4 (fun _ => true) (pad4Chars y)
    ('-' :: (pad2Chars m ++ '-' :: pad2Chars d)) (pad4Chars_digits y)
    (by intro c hc; simp at hc; subst hc; decide) (by simp [pad4Chars]) (by simp [pad4Chars]) rfl
  have h2 := digitField_eval 1 2 (fun v => decide (1 ≤ v) && decide (v ≤ 12)) (pad2Chars m)
    ('-' :: pad2Chars d) (pad2Chars_digits m)
    (by intro c hc; simp at hc; subst hc; decide) (by simp [pad2Chars]) (by simp [pad2Chars])
    (by rw [digitsVal_pad2 m (by omega)]; simp; omega)
  have h3 := digitField_eval 1 2 (fun v => decide (1 ≤ v) && decide (v ≤ 31)) (pad2Chars d)
    [] (pad2Chars_digits d) (by intro c hc; simp at hc) (by simp [pad2Chars]) (by simp [pad2Chars])
    (by rw [digitsVal_pad2 d (by omega)]; simp; omega)
  rw [List.append_nil] at h3
  constructor
  · unfold strptimeYmdHms
    simp only [h1, h2, h3, expectChar_eval, spaceRun_nil]
  · unfold strptimeYmdHm
    simp only [h1, h2, h3, expectChar_eval, spaceRun_nil]

/-- `fromisoformat` accepts a bare valid date and yields midnight. -/
theorem fromisoformat_bareDate (y m d : Nat) (hy : y ≤ 9999) (hm : m ≤ 99) (hd : d ≤ 99)
    (hvd : validDate y m d = true) :
    fromisoformat (pad4Chars y ++ '-' :: (pad2Chars m ++ '-' :: pad2Chars d)) =
      some ⟨y, m, d, 0, 0, 0, 0⟩ := by
  have h1 := digitField_eval 4 4 (fun _ => true) (pad4Chars y)
    ('-' :: (pad2Chars m ++ '-' :: pad2Chars d)) (pad4Chars_digits y)
    (by intro c hc; simp at hc; subst hc; decide) (by simp [pad4Chars]) (by simp [pad4Chars]) rfl
  have h2 := digitField_eval 2 2 (fun _ => true) (pad2Chars m)
    ('-' :: pad2Chars d) (pad2Chars_digits m)
    (by intro c hc; simp at hc; subst hc; decide) (by simp [pad2Chars]) (by simp [pad2Chars]) rfl
  have h3 := digitField_eval 2 2 (fun _ => true) (pad2Chars d)
    [] (pad2Chars_digits d) (by intro c hc; simp at hc) (by simp [pad2Chars]) (by simp [pad2Chars]) rfl
  rw [List.append_nil] at h3
  unfold fromisoformat fixedDigits
  simp only [h1, h2, h3, expectChar_eval,
    digitsVal_pad4 y (by omega), digitsVal_pad2 m (by omega), digitsVal_pad2 d (by omega),
    hvd, if_true]

/-- C10: a bare `YYYY-MM-DD` first field (a valid calendar date) parses via the
ISO fallback, so such a first row is classified as data and `main` keeps it for
aggregation. -/
theorem C10_bare_date_row_is_data (y m d : Nat) (hv : validDate y m d = true)
    (fs : List String) (rest : List (List String)) :
    parse_timestamp (bareDateString y m d) = some ⟨y, m, d, 0, 0, 0, 0⟩ ∧
    is_header_row (bareDateString y m d :: fs) = false ∧
    dropHeader ((bareDateString y m d :: fs) :: rest) = (bareDateString y m d :: fs) :: rest := by
  have hv' := hv
  simp only [validDate, Bool.and_eq_true, decide_eq_true_eq] at hv'
  obtain ⟨⟨⟨⟨⟨hy1, hy⟩, hm1⟩, hm⟩, hd1⟩, hdm⟩ := hv'
  have hd31 : d ≤ 31 := le_trans hdm (daysInMonth_le y m)
  have hdata : (bareDateString y m d).data =
      pad4Chars y ++ '-' :: (pad2Chars m ++ '-' :: pad2Chars d) := rfl
  have hparse : parse_timestamp (bareDateString y m d) = some ⟨y, m, d, 0, 0, 0, 0⟩ := by
    unfold parse_timestamp
    rw [hdata]
    simp only [stripChars_id (bareDate_chars_not_space y m d),
      mapT_id (bareDate_chars_not_T y m d),
      (strptime_bareDate_none y m d hm1 hm hd1 hd31).1,
      (strptime_bareDate_none y m d hm1 hm hd1 hd31).2,
      fromisoformat_bareDate y m d hy (by omega) (by omega) hv]
  refine ⟨hparse, ?_, ?_⟩
  · simp [is_header_row, hparse]
  · simp [dropHeader, is_header_row, hparse]

/-- Witness for C10 at `2025-10-13`. -/
theorem C10_bare_date_row_is_data_witness :
    parse_timestamp (bareDateString 2025 10 13) = some ⟨2025, 10, 13, 0, 0, 0, 0⟩ ∧
    is_header_row (bareDateString 2025 10 13 :: ["100"]) = false ∧
    dropHeader ((bareDateString 2025 10 13 :: ["100"]) :: []) =
      (bareDateString 2025 10 13 :: ["100"]) :: [] :=
  C10_bare_date_row_is_data 2025 10 13 (by decide) ["100"] []

/-! ## Claim C1 — the end-to-end scenario -/

theorem tfn_020 : to_finnish_number 0.20 = "0,20" := by
  rw [show (0.20 : ℚ) = ((20 : ℕ) : ℚ) / 100 from by norm_num, finnish_div100]
  decide

theorem tfn_040 : to_finnish_number 0.40 = "0,40" := by
  rw [show (0.40 : ℚ) = ((40 : ℕ) : ℚ) / 100 from by norm_num, finnish_div100]
  decide

theorem tfn_060 : to_finnish_number 0.60 = "0,60" := by
  rw [show (0.60 : ℚ) = ((60 : ℕ) : ℚ) / 100 from by norm_num, finnish_div100]
  decide

theorem tfn_010 : to_finnish_number 0.10 = "0,10" := by
  rw [show (0.10 : ℚ) = ((10 : ℕ) : ℚ) / 100 from by norm_num, finnish_div100]
  decide

theorem tfn_012 : to_finnish_number 0.12 = "0,12" := by
  rw [show (0.12 : ℚ) = ((12 : ℕ) : ℚ) / 100 from by norm_num, finnish_div100]
  decide

theorem tfn_014 : to_finnish_number 0.14 = "0,14" := by
  rw [show (0.14 : ℚ) = ((14 : ℕ) : ℚ) / 100 from by norm_num, finnish_div100]
  decide

theorem tfn_050 : to_finnish_number 0.50 = "0,50" := by
  rw [show (0.50 : ℚ) = ((50 : ℕ) : ℚ) / 100 from by norm_num, finnish_div100]
  decide

theorem tfn_zero : to_finnish_number 0 = "0,00" := by
  rw [show (0 : ℚ) = ((0 : ℕ) : ℚ) / 100 from by norm_num, finnish_div100]
  decide

theorem reportLine_monday :
    reportLine ⟨2025, 10, 13⟩ [0.20, 0.40, 0.60, 0.10, 0.12, 0.14] =
      "maanantai    13.10.2025     0,20    0,40    0,60           0,10   0,12   0,14" := by
  have hwd : weekday ⟨2025, 10, 13⟩ = 0 := by decide
  simp only [reportLine, hwd, List.getD_cons_zero, List.getD_cons_succ]
  rw [tfn_020, tfn_040, tfn_060, tfn_010, tfn_012, tfn_014]
  decide

theorem reportLine_tuesday :
    reportLine ⟨2025, 10, 14⟩ [0.50, 0, 0, 0, 0, 0] =
      "tiistai      14.10.2025     0,50    0,00    0,00           0,00   0,00   0,00" := by
  have hwd : weekday ⟨2025, 10, 14⟩ = 1 := by decide
  simp only [reportLine, hwd, List.getD_cons_zero, List.getD_cons_succ]
  rw [tfn_050, tfn_zero]
  decide

/-- C1: the three scenario rows aggregate to the claimed kilowatt-hour totals,
and the printed report lists 2025-10-13 before 2025-10-14 with the weekday
names `maanantai` and `tiistai`. -/
theorem C1_end_to_end_scenario :
    compute_daily_totals
      [["2025-10-13 00:00:00", "100", "200", "300", "50", "60", "70"],
       ["2025-10-13 00:15:00", "100", "200", "300", "50", "60", "70"],
       ["2025-10-14 00:00:00", "500", "0", "0", "0", "0", "0"]] =
      Except.ok [(⟨2025, 10, 13⟩, [0.20, 0.40, 0.60, 0.10, 0.12, 0.14]),
                 (⟨2025, 10, 14⟩, [0.50, 0, 0, 0, 0, 0])] ∧
    print_report [(⟨2025, 10, 13⟩, [0.20, 0.40, 0.60, 0.10, 0.12, 0.14]),
                  (⟨2025, 10, 14⟩, [0.50, 0, 0, 0, 0, 0])] =
      ["Week 42 electricity consumption and production (kWh, by phase)\n",
       "Day          Date        Consumption [kWh]               Production [kWh]",
       "            (dd.mm.yyyy)  v1      v2      v3             v1     v2     v3",
       "---------------------------------------------------------------------------",
       "maanantai    13.10.2025     0,20    0,40    0,60           0,10   0,12   0,14",
       "tiistai      14.10.2025     0,50    0,00    0,00           0,00   0,00   0,00"] := by
  constructor
  · norm_num [compute_daily_totals, foldRows, foldRow, parseRow, mapDiv,
      pt_oct13_0000, pt_oct13_0015, pt_oct14_0000,
      tf_100, tf_200, tf_300, tf_50, tf_60, tf_70, tf_500, tf_0,
      addToAssoc, add6, zero6, DateTime.toDate]
  · have hsort : sortedDates [(⟨2025, 10, 13⟩, [0.20, 0.40, 0.60, 0.10, 0.12, 0.14]),
        (⟨2025, 10, 14⟩, [0.50, 0, 0, 0, 0, 0])] = [⟨2025, 10, 13⟩, ⟨2025, 10, 14⟩] := by
      decide
    have hfind1 : findDay [(⟨2025, 10, 13⟩, ([0.20, 0.40, 0.60, 0.10, 0.12, 0.14] : List ℚ)),
        (⟨2025, 10, 14⟩, [0.50, 0, 0, 0, 0, 0])] ⟨2025, 10, 13⟩ =
        some [0.20, 0.40, 0.60, 0.10, 0.12, 0.14] := by
      simp [findDay]
    have hfind2 : findDay [(⟨2025, 10, 13⟩, ([0.20, 0.40, 0.60, 0.10, 0.12, 0.14] : List ℚ)),
        (⟨2025, 10, 14⟩, [0.50, 0, 0, 0, 0, 0])] ⟨2025, 10, 14⟩ =
        some [0.50, 0, 0, 0, 0, 0] := by
      simp [findDay]
    simp only [print_report, hsort, List.map_cons, List.map_nil, hfind1, hfind2,
      Option.getD_some, reportLine_monday, reportLine_tuesday]
    rfl

end TaskD
